import Mathlib

/-!
Verification development for the project-structure reader.

This file gives a shallow embedding, in Lean 4, of the core pipeline of
`src/main.py` (with `src/utils/file_utils.py` as a secondary source):
path validation, binary classification, sensitive-content scanning,
content minification, candidate-file collection, concurrent reading, and
output formatting.  Pure Python functions become Lean functions on
`String` / `List Char`; OS and third-party effects (the filesystem,
`chardet`, byte decoding, `markdown2`, the user-supplied regex of the
`-R` flag) are passed in as explicit parameters, so every definition here
is executable.  Python string scans are modelled over their ASCII
behaviour (the inputs exercised by the properties below are ASCII).
Scanning loops use an explicit fuel argument equal to the input length so
that they stay structurally recursive and kernel-reducible; fuel is never
exhausted because every step consumes at least one character.
-/

namespace SendAI

/-- Character code 34, the double-quote character. -/
def qChar : Char := Char.ofNat 34

/-- Character code 39, the single-quote character. -/
def apChar : Char := Char.ofNat 39

/-- Character code 92, the backslash character. -/
def bsChar : Char := Char.ofNat 92

/-- ASCII members of Python's whitespace class (`str.strip`, regex class
`\s`): space, tab, newline, carriage return, vertical tab, form feed. -/
def pySpace (c : Char) : Bool :=
  c == ' ' || c == '\t' || c == '\n' || c == '\r' || c == '\x0b' || c == '\x0c'

/-- Python `line.strip()`: drop whitespace from both ends. -/
def pyStrip (l : List Char) : List Char :=
  ((l.dropWhile pySpace).reverse.dropWhile pySpace).reverse

/-- Does the list start with the given pattern (used to model Python
substring search)? -/
def startsWithChars : List Char → List Char → Bool
  | [], _ => true
  | _ :: _, [] => false
  | p :: ps, c :: cs => p == c && startsWithChars ps cs

/-- Python `pat in l`: some suffix of `l` starts with `pat`. -/
def hasSub (pat : List Char) (l : List Char) : Bool :=
  l.tails.any (fun t => startsWithChars pat t)

/-- Python `content.split(sep)` on character lists. -/
def splitLines (sep : Char) : List Char → List (List Char)
  | [] => [[]]
  | c :: cs =>
    if c == sep then [] :: splitLines sep cs
    else
      match splitLines sep cs with
      | [] => [[c]]
      | h :: t => (c :: h) :: t

/-- Python `sep.join(lines)` on character lists. -/
def joinLines (sep : Char) : List (List Char) → List Char
  | [] => []
  | [l] => l
  | l :: ls => l ++ sep :: joinLines sep ls

/-- Index of the last dot in a file name, if any. -/
def lastDotIdx (l : List Char) : Option Nat :=
  match l.reverse.findIdx? (fun c => c == '.') with
  | none => none
  | some j => some (l.length - 1 - j)

/-- Extension part of `os.path.splitext` applied to a single path
component: the suffix from the last dot, unless every character before
that dot is itself a dot (so `.bashrc` and `..txt` have no extension). -/
def extOf (name : List Char) : List Char :=
  match lastDotIdx name with
  | none => []
  | some i => if (name.take i).all (fun c => c == '.') then [] else name.drop i

/-- Python `os.path.splitext(name)[1].lower()` for a bare file name. -/
def splitextLowerName (name : String) : String :=
  String.mk ((extOf name.data).map Char.toLower)

/-- Last path component of a POSIX path (everything after the last `/`). -/
def basenameChars (p : List Char) : List Char :=
  ((splitLines '/' p).getLast?).getD []

/-- Python `os.path.splitext(file_path)[1].lower()` for a full POSIX path. -/
def splitextLowerPath (p : String) : String :=
  String.mk ((extOf (basenameChars p.data)).map Char.toLower)

/-- Python `str.lower()` over its ASCII behaviour. -/
def lowerStr (s : String) : String := String.mk (s.data.map Char.toLower)

/-! ## `minify_content` (src/main.py lines 300-339) -/

/-- Extension list of the Python-comment branch of `minify_content`. -/
def pyExts : List String := [".py"]

/-- Extension list of the C-style-comment branch of `minify_content`. -/
def cLikeExts : List String :=
  [".js", ".ts", ".jsx", ".tsx", ".java", ".cs", ".go", ".php"]

/-- Extension list of the HTML/XML-comment branch of `minify_content`. -/
def markupExts : List String := [".html", ".xml"]

/-- Extension list of the CSS-comment branch of `minify_content`. -/
def cssExts : List String := [".css", ".scss"]

/-- Every extension with a family-specific stripping rule. -/
def recognizedMinifyExts : List String :=
  pyExts ++ cLikeExts ++ markupExts ++ cssExts

/-- Triple double-quote marker. -/
def tripleD : List Char := [qChar, qChar, qChar]

/-- Triple single-quote marker. -/
def tripleS : List Char := [apChar, apChar, apChar]

/-- Does the stripped line start with a hash? -/
def startsHash : List Char → Bool
  | '#' :: _ => true
  | _ => false

/-- Line filter of the `.py` branch of `minify_content`: toggle the
docstring flag on any line containing a triple quote and keep the line;
outside docstrings drop `#`-comment lines; keep lines whose stripped form
is non-empty; drop blank lines. -/
def minifyPyLines : List (List Char) → Bool → List (List Char)
  | [], _ => []
  | line :: rest, inDocstring =>
    let stripped := pyStrip line
    if hasSub tripleD stripped || hasSub tripleS stripped then
      line :: minifyPyLines rest (!inDocstring)
    else if !inDocstring && startsHash stripped then
      minifyPyLines rest inDocstring
    else if !stripped.isEmpty then
      line :: minifyPyLines rest inDocstring
    else
      minifyPyLines rest inDocstring

/-- Python branch of `minify_content`: split on newlines, filter lines,
rejoin. -/
def minifyPyChars (cs : List Char) : List Char :=
  joinLines '\n' (minifyPyLines (splitLines '\n' cs) false)

/-- One step of `re.sub(r'//.*?$', '', content, flags=re.MULTILINE)`:
on `//`, drop up to (not including) the next newline and resume scanning
there; `.` does not cross newlines. -/
def removeLineCommentsAux : Nat → List Char → List Char
  | 0, l => l
  | _ + 1, [] => []
  | fuel + 1, '/' :: '/' :: rest =>
    removeLineCommentsAux fuel (rest.dropWhile (fun c => !(c == '\n')))
  | fuel + 1, c :: rest => c :: removeLineCommentsAux fuel rest

/-- Removal of `//` line comments. -/
def removeLineComments (l : List Char) : List Char :=
  removeLineCommentsAux l.length l

/-- Remainder after the first `*/`, if one occurs (the non-greedy `.*?`
of the block-comment pattern stops at the first closer). -/
def dropToClose : List Char → Option (List Char)
  | '*' :: '/' :: rest => some rest
  | _ :: rest => dropToClose rest
  | [] => none

/-- Model of `re.sub(r'/\*.*?\*/', '', content, flags=re.DOTALL)`: on
`/*`, if a closing `*/` occurs later the whole span is dropped and
scanning resumes after it; with no closer there is no match and the
characters stay. -/
def removeBlockCommentsAux : Nat → List Char → List Char
  | 0, l => l
  | _ + 1, [] => []
  | fuel + 1, '/' :: '*' :: rest =>
    (match dropToClose rest with
     | some rest2 => removeBlockCommentsAux fuel rest2
     | none => '/' :: removeBlockCommentsAux fuel ('*' :: rest))
  | fuel + 1, c :: rest => c :: removeBlockCommentsAux fuel rest

/-- Removal of `/* ... */` block comments. -/
def removeBlockComments (l : List Char) : List Char :=
  removeBlockCommentsAux l.length l

/-- Remainder after the first `-->`, if one occurs. -/
def dropToDashClose : List Char → Option (List Char)
  | '-' :: '-' :: '>' :: rest => some rest
  | _ :: rest => dropToDashClose rest
  | [] => none

/-- Model of `re.sub(r'<!--.*?-->', '', content, flags=re.DOTALL)`. -/
def removeHtmlCommentsAux : Nat → List Char → List Char
  | 0, l => l
  | _ + 1, [] => []
  | fuel + 1, '<' :: '!' :: '-' :: '-' :: rest =>
    (match dropToDashClose rest with
     | some rest2 => removeHtmlCommentsAux fuel rest2
     | none => '<' :: removeHtmlCommentsAux fuel ('!' :: '-' :: '-' :: rest))
  | fuel + 1, c :: rest => c :: removeHtmlCommentsAux fuel rest

/-- Removal of `<!-- ... -->` comments. -/
def removeHtmlComments (l : List Char) : List Char :=
  removeHtmlCommentsAux l.length l

/-- Index of the last newline in a list, if any. -/
def lastNewlineIdx (l : List Char) : Option Nat :=
  match l.reverse.findIdx? (fun c => c == '\n') with
  | none => none
  | some j => some (l.length - 1 - j)

/-- Model of `re.sub(r'\n\s*\n', '\n\n', content)`: at a newline, the
greedy `\s*` backtracks so that the match ends at the last newline inside
the following whitespace run; the whole match is replaced by two newlines
and scanning resumes after it (matches do not overlap). -/
def collapseBlankAux : Nat → List Char → List Char
  | 0, l => l
  | _ + 1, [] => []
  | fuel + 1, '\n' :: rest =>
    (match lastNewlineIdx (rest.takeWhile pySpace) with
     | none => '\n' :: collapseBlankAux fuel rest
     | some k => '\n' :: '\n' :: collapseBlankAux fuel (rest.drop (k + 1)))
  | fuel + 1, c :: rest => c :: collapseBlankAux fuel rest

/-- Blank-line-run collapse, the final step of `minify_content`. -/
def collapseBlank (l : List Char) : List Char :=
  collapseBlankAux l.length l

/-- Behaviour of `minify_content` when the family-specific stripping is a
pass-through: only the empty-content early return and the blank-line
collapse apply. -/
def collapseOnly (content : String) : String :=
  if content.data.isEmpty then content else String.mk (collapseBlank content.data)

/-- Model of `minify_content(content, file_ext)` from src/main.py lines
300-339: empty content is returned unchanged; otherwise the branch keyed
by the extension strips comments and then runs of blank lines collapse. -/
def minify_content (content : String) (file_ext : String) : String :=
  if content.data.isEmpty then content
  else
    let cs := content.data
    let cs2 :=
      if file_ext ∈ pyExts then minifyPyChars cs
      else if file_ext ∈ cLikeExts then removeBlockComments (removeLineComments cs)
      else if file_ext ∈ markupExts then removeHtmlComments cs
      else if file_ext ∈ cssExts then removeBlockComments cs
      else cs
    String.mk (collapseBlank cs2)

/-! ## `check_sensitive_content` (src/main.py lines 363-375) -/

/-- Is the character-code of `c` in the inclusive range? -/
def inRange (lo hi : Nat) (c : Char) : Bool :=
  decide (lo ≤ c.toNat) && decide (c.toNat ≤ hi)

/-- Regex class `[A-Za-z0-9_-]`, the key body of the credential patterns. -/
def keyBody (c : Char) : Bool :=
  inRange 65 90 c || inRange 97 122 c || inRange 48 57 c || c == '_' || c == '-'

/-- Regex class `[^'\"]`, the value body of the password pattern. -/
def passBody (c : Char) : Bool :=
  !(c == apChar) && !(c == qChar)

/-- Case-insensitive literal prefix match (models `re.IGNORECASE` on an
ASCII literal given here in lowercase); returns the remainder on success. -/
def ciPref : List Char → List Char → Option (List Char)
  | [], l => some l
  | _ :: _, [] => none
  | p :: ps, c :: cs => if c.toLower == p then ciPref ps cs else none

/-- Either quote character, the regex class `['\"]`. -/
def isQuoteChar (c : Char) : Bool := c == apChar || c == qChar

/-- Match of the anchored pattern `LIT\s*=\s*['\"]BODY+['\"]` at the head
of the list.  Since `=` and the quotes are not whitespace and the quotes
are not body characters, the greedy `\s*` and `BODY+` are equivalent to
taking maximal runs. -/
def matchAssignAt (lit : List Char) (body : Char → Bool) (l : List Char) : Bool :=
  match ciPref lit l with
  | none => false
  | some r1 =>
    match r1.dropWhile pySpace with
    | '=' :: r2 =>
      (match r2.dropWhile pySpace with
       | q :: r3 =>
         if isQuoteChar q then
           let run := r3.takeWhile body
           if run.isEmpty then false
           else
             match r3.drop run.length with
             | q2 :: _ => isQuoteChar q2
             | [] => false
         else false
       | [] => false)
    | _ => false

/-- Model of `re.search` for an assignment-style credential pattern:
some position of the text starts a match. -/
def searchAssign (lit : List Char) (body : Char → Bool) (cs : List Char) : Bool :=
  cs.tails.any (fun t => matchAssignAt lit body t)

/-- Lowercase literal of the pattern `API_KEY\s*=\s*['\"][A-Za-z0-9_-]+['\"]`. -/
def apiKeyLit : List Char := "api_key".data

/-- Lowercase literal of the secret-key pattern. -/
def secretKeyLit : List Char := "secret_key".data

/-- Lowercase literal of the password pattern. -/
def passwordLit : List Char := "password".data

/-- Lowercase literal of the `token` pattern. -/
def tokenLit : List Char := "token".data

/-- Model of `check_sensitive_content(content)` from src/main.py lines
363-375: the four credential patterns are tried in order and the function
returns true on the first match (`||` short-circuits exactly as the
source's loop does). -/
def check_sensitive_content (content : String) : Bool :=
  searchAssign apiKeyLit keyBody content.data ||
  searchAssign secretKeyLit keyBody content.data ||
  searchAssign passwordLit passBody content.data ||
  searchAssign tokenLit keyBody content.data

/-! ## `is_binary_file` (src/main.py lines 353-361) -/

/-- Abstract interface of `chardet.detect`: a detected encoding (or none)
and a confidence.  Confidence is modelled over the rationals; the source
compares a float against the literal threshold 0.9. -/
structure Chardet where
  detect : List Nat → Option String × ℚ

/-- Model of `is_binary_file(file_path)` from src/main.py lines 353-361.
The file's bytes are `none` when the sample read raises (the `except`
branch); otherwise the detector runs on the first 1024 bytes and the file
is binary when confidence is below 0.9 or no encoding was determined. -/
def is_binary_file (d : Chardet) (fileBytes : Option (List Nat)) : Bool :=
  match fileBytes with
  | none => true
  | some bytes =>
    let r := d.detect (bytes.take 1024)
    decide (r.2 < (9 : ℚ) / 10) || r.1.isNone

/-! ## `read_file` (src/main.py lines 420-450) -/

/-- The fixed redaction marker substituted for sensitive content. -/
def maskedMarker : String := "[MASKED SENSITIVE CONTENT]"

/-- Forty dashes, the separator line of a content block. -/
def dashes40 : String := String.mk (List.replicate 40 '-')

/-- The formatted per-file block
`"\n" + "-"*40 + "\nFile: path\n" + "-"*40 + "\ncontent\n"`. -/
def contentBlock (file_path content : String) : String :=
  "\n" ++ dashes40 ++ "\nFile: " ++ file_path ++ "\n" ++ dashes40 ++ "\n" ++
    content ++ "\n"

/-- Keyword filter of `read_file`: `keyword and keyword.lower() not in
content.lower()`.  A `none` or empty keyword is falsy and never filters. -/
def keywordMismatch : Option String → String → Bool
  | none, _ => false
  | some k, content =>
    !(k == "") && !(hasSub (lowerStr k).data (lowerStr content).data)

/-- Regex filter of `read_file`, with the user-supplied pattern modelled
as an abstract case-insensitive search predicate (`re.search` with
`re.IGNORECASE` over an arbitrary pattern is outside the embedding). -/
def regexMismatch : Option (String → Bool) → String → Bool
  | none, _ => false
  | some t, content => !(t content)

/-- Model of `read_file(file_path, keyword, regex, minify)` from
src/main.py lines 420-450.  `fileBytes` is the file's byte content
(`none` when reading raises, which also makes the binary probe raise);
`decode` abstracts `raw.decode(encoding, errors="replace")`, applied to
the detected encoding and the raw bytes.  Sensitive content is replaced
by the marker before minification, and the keyword and regex filters run
on the transformed content. -/
def read_file (d : Chardet) (decode : Option String → List Nat → String)
    (fileBytes : Option (List Nat)) (file_path : String)
    (keyword : Option String) (regexTest : Option (String → Bool))
    (minify : Bool) : Option String :=
  if is_binary_file d fileBytes then none
  else
    match fileBytes with
    | none => none
    | some raw =>
      let content0 := decode (d.detect raw).1 raw
      let content1 := if check_sensitive_content content0 then maskedMarker else content0
      let content2 :=
        if minify && !(content1 == maskedMarker) then
          minify_content content1 (splitextLowerPath file_path)
        else content1
      if keywordMismatch keyword content2 then none
      else if regexMismatch regexTest content2 then none
      else some (contentBlock file_path content2)

/-- Result joining of `get_file_contents`:
`"".join([r for r in results if r])` keeps results that are neither
`None` nor the empty string. -/
def joinTruthy : List (Option String) → String
  | [] => ""
  | none :: rest => joinTruthy rest
  | some s :: rest => if s.isEmpty then joinTruthy rest else s ++ joinTruthy rest

/-! ## `validate_path` (src/utils/file_utils.py lines 20-26, src/main.py
lines 193-199) -/

/-- Error message of the missing-path failure (the `_` translation is the
identity in the default locale). -/
def msgNotExist (p : String) : String := "Path does not exist: " ++ p

/-- Error message of the not-a-directory failure. -/
def msgNotDir (p : String) : String := "Path is not a directory: " ++ p

/-- Model of `validate_path(folder_path)`: the filesystem probes
`os.path.exists`, `os.path.isdir` and `os.path.abspath` are explicit
parameters; a raised `ValueError` becomes `Except.error` carrying the
source's message. -/
def validate_path (pathExists : String → Bool) (isDir : String → Bool)
    (abspath : String → String) (folder_path : String) : Except String String :=
  if !(pathExists folder_path) then Except.error (msgNotExist folder_path)
  else if !(isDir folder_path) then Except.error (msgNotDir folder_path)
  else Except.ok (abspath folder_path)

/-! ## Candidate-file collection in `get_file_contents` (src/main.py
lines 452-497) -/

/-- A regular file as observed during the walk: name, byte size, and
modification time (`os.path.getmtime`, as a timestamp). -/
structure FileMeta where
  name : String
  size : Nat
  mtime : Int
deriving DecidableEq

/-- One `(root, dirs, files)` item of the `os.walk` stream: the
directory's path components relative to the validated root, and its
regular files in listing order.  `os.walk` in this source is not pruned,
so the stream holds every directory under the root. -/
structure WalkDir where
  relParts : List String
  files : List FileMeta
deriving DecidableEq

/-- The filter arguments of `get_file_contents` (defaults already
substituted by the caller, as the source does on entry). -/
structure CollectCfg where
  exclude_folders : List String
  exclude_extensions : List String
  filter_folder : Option String
  selected_files : Option (List String)
  min_size : Nat
  modified_after : Option Int

/-- POSIX join of path components (`os.sep` is `/`). -/
def joinParts (parts : List String) : String := String.intercalate "/" parts

/-- Directory-level skip of the collection loop:
`any(part in exclude_folders for part in path_parts)` over the segments
of the directory's absolute path, then
`filter_folder and filter_folder not in root` (an empty filter string is
falsy, and also a substring of everything, so modelling it as substring
search is exact). -/
def dirSkipped (cfg : CollectCfg) (rootParts : List String) (d : WalkDir) : Bool :=
  (rootParts ++ d.relParts).any (fun part => cfg.exclude_folders.contains part) ||
  (match cfg.filter_folder with
   | none => false
   | some ff => !(hasSub ff.data (joinParts (rootParts ++ d.relParts)).data))

/-- Relative path `os.path.relpath(file_path, folder_path)` of a file in
walk directory `d`. -/
def relPathOf (d : WalkDir) (f : FileMeta) : String :=
  joinParts (d.relParts ++ [f.name])

/-- File-level skip of the collection loop: excluded extension, absence
from a supplied selection (`if selected_files is not None`), minimum size
(`if min_size > 0 and size < min_size`), and modification date
(`if modified_after and mtime < modified_after`). -/
def fileSkipped (cfg : CollectCfg) (d : WalkDir) (f : FileMeta) : Bool :=
  cfg.exclude_extensions.contains (splitextLowerName f.name) ||
  (match cfg.selected_files with
   | none => false
   | some sel => !(sel.contains (relPathOf d f))) ||
  (decide (0 < cfg.min_size) && decide (f.size < cfg.min_size)) ||
  (match cfg.modified_after with
   | none => false
   | some t => decide (f.mtime < t))

/-- The `file_list` built by `get_file_contents` (src/main.py lines
466-494): iterate the walk stream, skip whole directories first, then
filter the directory's files; each kept file is identified by its
directory's relative components paired with its metadata. -/
def get_file_contents_file_list (cfg : CollectCfg) (rootParts : List String)
    (walk : List WalkDir) : List (List String × FileMeta) :=
  (walk.map (fun d =>
    if dirSkipped cfg rootParts d then []
    else (d.files.filter (fun f => !(fileSkipped cfg d f))).map
      (fun f => (d.relParts, f)))).flatten

/-- Refinement comparison for the collection claim: the exclusion
predicate exactly as the specification words it — a path segment equals
an excluded folder name, the lowercased extension is excluded, a
supplied and NON-EMPTY allow-list misses the relative path, the size is
below the minimum, or the modification time is strictly before the
cutoff.  This is intentionally the spec's wording, not the source's. -/
def specExcludedC3 (cfg : CollectCfg) (rootParts : List String) (d : WalkDir)
    (f : FileMeta) : Bool :=
  (rootParts ++ d.relParts ++ [f.name]).any
    (fun part => cfg.exclude_folders.contains part) ||
  cfg.exclude_extensions.contains (splitextLowerName f.name) ||
  (match cfg.selected_files with
   | none => false
   | some sel => !(sel.isEmpty) && !(sel.contains (relPathOf d f))) ||
  decide (f.size < cfg.min_size) ||
  (match cfg.modified_after with
   | none => false
   | some t => decide (f.mtime < t))

/-! ## `format_output` (src/main.py lines 509-532) -/

/-- Python truthiness of the optional prompt template string. -/
def promptTruthy : Option String → Bool
  | none => false
  | some p => !p.isEmpty

/-- Lowercase hexadecimal digit. -/
def hexDigit (n : Nat) : Char :=
  if n < 10 then Char.ofNat (48 + n) else Char.ofNat (87 + n)

/-- Per-character escaping of `json.dumps(..., ensure_ascii=False)`:
quote, backslash and the named control characters get two-character
escapes, other control characters below 32 get a `\u00XX` escape, and
every other character — in particular every non-ASCII character — is
emitted as itself. -/
def jsonEscapeChar (c : Char) : String :=
  if c = qChar then String.mk [bsChar, qChar]
  else if c = bsChar then String.mk [bsChar, bsChar]
  else if c = '\n' then String.mk [bsChar, 'n']
  else if c = '\t' then String.mk [bsChar, 't']
  else if c = '\r' then String.mk [bsChar, 'r']
  else if c = Char.ofNat 8 then String.mk [bsChar, 'b']
  else if c = Char.ofNat 12 then String.mk [bsChar, 'f']
  else if c.toNat < 32 then
    String.mk [bsChar, 'u', '0', '0', hexDigit (c.toNat / 16), hexDigit (c.toNat % 16)]
  else String.singleton c

/-- A JSON string literal: quoted, characters escaped. -/
def jsonQuote (s : String) : String :=
  String.mk [qChar] ++ String.join (s.data.map jsonEscapeChar) ++ String.mk [qChar]

/-- Serialization of a flat string-valued object by
`json.dumps(obj, indent=2, ensure_ascii=False)`, keys in insertion
order. -/
def jsonDumpsIndent2 (entries : List (String × String)) : String :=
  "\x7b\n" ++
    String.intercalate ",\n"
      (entries.map (fun kv => "  " ++ jsonQuote kv.1 ++ ": " ++ jsonQuote kv.2)) ++
  "\n\x7d"

/-- The dict built by the `json` branch of `format_output`: keys
`prompt`, `folder_structure`, `file_contents` in insertion order, with
the prompt value defaulting to the empty string. -/
def jsonObjEntries (st contents : String) (prompt_template : Option String) :
    List (String × String) :=
  [("prompt", if promptTruthy prompt_template then prompt_template.getD "" else ""),
   ("folder_structure", st),
   ("file_contents", contents)]

/-- Markdown body shared by the `md` and `html` branches. -/
def mdBody (st contents : String) : String :=
  "# Project Structure\n\n```tree\n" ++ st ++ "\n```\n\n# File Contents\n\n```text\n" ++
    contents ++ "\n```"

/-- Plain-text body of the default branch. -/
def txtBody (st contents : String) : String :=
  "Folder Structure:\n" ++ st ++ "\n\nFile Contents:" ++ contents

/-- Model of `format_output(structure, contents, output_format,
prompt_template)` from src/main.py lines 509-532.  `mdRender` abstracts
`markdown2.markdown`.  Note that the `json` branch returns the serialized
dict directly, without the prepended `final_output`. -/
def format_output (st contents : String) (output_format : String)
    (prompt_template : Option String) (mdRender : String → String) : String :=
  let final_output :=
    if promptTruthy prompt_template then prompt_template.getD "" ++ "\n\n" else ""
  if output_format == "json" then
    jsonDumpsIndent2 (jsonObjEntries st contents prompt_template)
  else if output_format == "md" then
    final_output ++ mdBody st contents
  else if output_format == "html" then
    final_output ++ mdRender (mdBody st contents)
  else
    final_output ++ txtBody st contents

/-! ## Concurrent reading stage (src/main.py lines 499-507)

`executor.map` over a `ThreadPoolExecutor` submits one task per index of
`file_list` and yields results in submission order no matter when each
worker finishes.  The model makes the nondeterministic completion order
explicit: `sched` lists the task indices in the order the workers finish,
each finished task deposits its `(index, result)` pair in a write-once
buffer, and the visible result sequence reads the buffer back in index
order. -/

/-- Completion buffer: the `(index, result)` pairs in completion order.
An index outside the submitted range yields no result. -/
def taskOutputs {α β : Type} (f : α → β) (xs : List α) (sched : List Nat) :
    List (Nat × Option β) :=
  sched.map (fun i => (i, (xs[i]?).map f))

/-- The result sequence visible to the caller of `executor.map`: for each
submission index in order, the buffered result of the task with that
index. -/
def gatherResults {α β : Type} (f : α → β) (xs : List α) (sched : List Nat) :
    List (Option β) :=
  (List.range xs.length).map (fun i => ((taskOutputs f xs sched).lookup i).getD none)

/-! ## Concrete instantiations used to exercise the abstract interfaces -/

/-- A concrete detector: no encoding on an empty sample (as `chardet`
reports for zero bytes), full confidence in UTF-8 otherwise. -/
def simpleDetect : Chardet :=
  ⟨fun bytes => if bytes.isEmpty then (none, 0) else (some "utf-8", 1)⟩

/-- A concrete decoder producing a file whose content matches the
API-key pattern. -/
def apiKeyDecode : Option String → List Nat → String :=
  fun _ _ => "API_KEY = \x22abc123\x22"

/-- A concrete decoder producing a file that contains the keyword
`hello` and also matches the API-key pattern. -/
def helloKeyDecode : Option String → List Nat → String :=
  fun _ _ => "hello API_KEY = \x22k\x22"

/-! ## Helper lemmas -/

/-- The two `validate_path` error messages differ for every path. -/
theorem msgNotExist_ne_msgNotDir (p : String) : msgNotExist p ≠ msgNotDir p := by
  intro h
  have h2 : (msgNotExist p).data = (msgNotDir p).data := congrArg String.data h
  simp only [msgNotExist, msgNotDir, String.data_append] at h2
  have h6 := congrArg (List.take 6) h2
  rw [List.take_append_of_le_length (by decide),
      List.take_append_of_le_length (by decide)] at h6
  exact absurd h6 (by decide)

/-- Looking up a key in a buffer of key-tagged values yields the value of
that key whenever the key was deposited at all. -/
theorem lookup_map_pair {β : Type} (g : Nat → β) (sched : List Nat) (i : Nat)
    (h : i ∈ sched) :
    List.lookup i (sched.map (fun j => (j, g j))) = some (g i) := by
  induction sched with
  | nil => cases h
  | cons j rest ih =>
    rw [List.map_cons]
    by_cases hji : i = j
    · subst hji
      simp [List.lookup]
    · have hb : (i == j) = false := by simp [hji]
      have hr : i ∈ rest := (List.mem_cons.mp h).resolve_left hji
      simp [List.lookup, hb, ih hr]

/-- Dropping a `None` result from the result sequence does not change the
joined output. -/
theorem joinTruthy_append_none (pre post : List (Option String)) :
    joinTruthy (pre ++ none :: post) = joinTruthy (pre ++ post) := by
  induction pre with
  | nil => simp [joinTruthy]
  | cons a pre ih =>
    cases a with
    | none => simpa [joinTruthy] using ih
    | some s =>
      simp [joinTruthy, ih]

/-! ## Claim theorems -/

/-- Claim C2, counterexample: on the Python-like text
`"# comment\nx = 1\n\n\n\ny = 2\n"` with extension `.py`,
`minify_content` does NOT return `"x = 1\n\ny = 2\n"` — the `.py` branch
drops blank lines entirely instead of collapsing them to one, and the
trailing newline's empty final line is dropped as well. -/
theorem minify_py_example_ne_spec :
    minify_content "# comment\nx = 1\n\n\n\ny = 2\n" ".py" ≠ "x = 1\n\ny = 2\n" := by
  decide

/-- Claim C2, amended: `minify_content` on
`"# comment\nx = 1\n\n\n\ny = 2\n"` with extension `.py` returns exactly
`"x = 1\ny = 2"`: the comment line is removed, every blank line is
removed by the line filter of the `.py` branch (so no blank line remains
to be collapsed), and the trailing newline is gone. -/
theorem minify_py_example_eval :
    minify_content "# comment\nx = 1\n\n\n\ny = 2\n" ".py" = "x = 1\ny = 2" := by
  decide

/-- Claim C6: `minify_content` is a total function of its text and
extension (the embedding has no failure path, matching a source body
whose string transformations cannot raise), and for an extension outside
the four recognized families the family-specific stripping is a
pass-through: only the empty-content early return and the blank-line
collapse apply. -/
theorem minify_unrecognized_passthrough (content : String) (file_ext : String)
    (h : file_ext ∉ recognizedMinifyExts) :
    minify_content content file_ext = collapseOnly content := by
  simp only [recognizedMinifyExts, List.mem_append] at h
  have h1 : file_ext ∉ pyExts := fun hm => h (Or.inl (Or.inl (Or.inl hm)))
  have h2 : file_ext ∉ cLikeExts := fun hm => h (Or.inl (Or.inl (Or.inr hm)))
  have h3 : file_ext ∉ markupExts := fun hm => h (Or.inl (Or.inr hm))
  have h4 : file_ext ∉ cssExts := fun hm => h (Or.inr hm)
  simp [minify_content, collapseOnly, h1, h2, h3, h4]

/-- Claim C6, witness: `.zzz` is not a recognized minification extension
and `minify_content` on a concrete text with it performs only the
blank-line collapse. -/
theorem minify_unrecognized_passthrough_witness :
    (".zzz" ∉ recognizedMinifyExts) ∧
      minify_content "a\n\n\nb" ".zzz" = collapseOnly "a\n\n\nb" :=
  ⟨by decide, minify_unrecognized_passthrough "a\n\n\nb" ".zzz" (by decide)⟩

/-- Claim C8: `is_binary_file` consults the detector on at most the first
1024 bytes of the file and classifies the file as binary exactly when the
detector's confidence on that sample is below 9/10 or no encoding was
determined; a failed sample read (`fileBytes = none`) is classified as
binary. -/
theorem is_binary_file_spec (d : Chardet) (bytes : List Nat) :
    (is_binary_file d (some bytes) = true ↔
      ((d.detect (bytes.take 1024)).2 < (9 : ℚ) / 10 ∨
        (d.detect (bytes.take 1024)).1 = none)) ∧
    is_binary_file d none = true ∧
    (bytes.take 1024).length ≤ 1024 := by
  refine ⟨?_, rfl, ?_⟩
  · simp [is_binary_file, Bool.or_eq_true, decide_eq_true_eq,
      Option.isNone_iff_eq_none]
  · rw [List.length_take]
    exact Nat.min_le_left _ _

/-- Claim C7: `validate_path` fails exactly when the path is missing or
not a directory; a missing path yields the distinct missing-path error, an
existing non-directory yields the distinct not-a-directory error (the two
messages never coincide), and otherwise the absolute path is returned.
The model is a pure function, so validation has no side effects. -/
theorem validate_path_spec (pathExists isDir : String → Bool)
    (abspath : String → String) (p : String) :
    ((∃ m, validate_path pathExists isDir abspath p = Except.error m) ↔
      (pathExists p = false ∨ isDir p = false)) ∧
    (validate_path pathExists isDir abspath p = Except.error (msgNotExist p) ↔
      pathExists p = false) ∧
    (validate_path pathExists isDir abspath p = Except.error (msgNotDir p) ↔
      (pathExists p = true ∧ isDir p = false)) ∧
    (validate_path pathExists isDir abspath p = Except.ok (abspath p) ↔
      (pathExists p = true ∧ isDir p = true)) := by
  cases hpe : pathExists p with
  | false =>
    simp [validate_path, hpe, msgNotExist_ne_msgNotDir p]
  | true =>
    cases hid : isDir p with
    | false =>
      simp [validate_path, hpe, hid, (msgNotExist_ne_msgNotDir p).symm]
    | true =>
      simp [validate_path, hpe, hid]

/-- Claim C1, counterexample: the object built by the `json` branch of
`format_output` carries a key other than `folder_structure` and
`file_contents` — the `prompt` key is always present — so the parsed
output does not have exactly those two keys. -/
theorem format_output_json_extra_key :
    "prompt" ∈ (jsonObjEntries "s" "c" none).map Prod.fst ∧
      "prompt" ∉ (["folder_structure", "file_contents"] : List String) := by
  decide

/-- Claim C1, amended: for every structure string, contents string and
prompt template, the `json` output is the serialization of an object with
exactly the three keys `prompt`, `folder_structure` and `file_contents`
in that order; the values of `folder_structure` and `file_contents` equal
the inputs, and (`ensure_ascii=False`) every non-ASCII character is
serialized as itself rather than escaped. -/
theorem format_output_json_keys (st contents : String) (p : Option String)
    (mdRender : String → String) (c : Char) (hc : 128 ≤ c.toNat) :
    format_output st contents "json" p mdRender =
      jsonDumpsIndent2 (jsonObjEntries st contents p) ∧
    (jsonObjEntries st contents p).map Prod.fst =
      ["prompt", "folder_structure", "file_contents"] ∧
    List.lookup "folder_structure" (jsonObjEntries st contents p) = some st ∧
    List.lookup "file_contents" (jsonObjEntries st contents p) = some contents ∧
    jsonEscapeChar c = String.singleton c := by
  refine ⟨rfl, by simp [jsonObjEntries], by simp [jsonObjEntries, List.lookup],
    by simp [jsonObjEntries, List.lookup], ?_⟩
  have hq : c ≠ qChar := by
    intro hEq; subst hEq; exact absurd hc (by decide)
  have hb : c ≠ bsChar := by
    intro hEq; subst hEq; exact absurd hc (by decide)
  have hn : c ≠ '\n' := by
    intro hEq; subst hEq; exact absurd hc (by decide)
  have ht : c ≠ '\t' := by
    intro hEq; subst hEq; exact absurd hc (by decide)
  have hr : c ≠ '\r' := by
    intro hEq; subst hEq; exact absurd hc (by decide)
  have h8 : c ≠ Char.ofNat 8 := by
    intro hEq; subst hEq; exact absurd hc (by decide)
  have h12 : c ≠ Char.ofNat 12 := by
    intro hEq; subst hEq; exact absurd hc (by decide)
  have h32 : ¬(c.toNat < 32) := by omega
  simp [jsonEscapeChar, hq, hb, hn, ht, hr, h8, h12, h32]

/-- Claim C1, witness for the amended statement, at concrete inputs and
the non-ASCII character of code 233. -/
theorem format_output_json_keys_witness :
    128 ≤ (Char.ofNat 233).toNat ∧
    (format_output "s" "c" "json" none id =
      jsonDumpsIndent2 (jsonObjEntries "s" "c" none) ∧
    (jsonObjEntries "s" "c" none).map Prod.fst =
      ["prompt", "folder_structure", "file_contents"] ∧
    List.lookup "folder_structure" (jsonObjEntries "s" "c" none) = some "s" ∧
    List.lookup "file_contents" (jsonObjEntries "s" "c" none) = some "c" ∧
    jsonEscapeChar (Char.ofNat 233) = String.singleton (Char.ofNat 233)) :=
  ⟨by decide, format_output_json_keys "s" "c" none id (Char.ofNat 233) (by decide)⟩

/-- Claim C3, amended: a file appears in the candidate list built by
`get_file_contents` exactly when its walk directory carries it, no
segment of the directory's absolute path equals an excluded folder name,
a set folder-name filter occurs as a substring of the directory's path,
its lowercased extension is not excluded, a supplied selection — whether
or not empty — holds its relative path, its size is not below a positive
`min_size`, and its modification time is not strictly before a set
`modified_after`. -/
theorem get_file_contents_membership (cfg : CollectCfg) (rootParts : List String)
    (walk : List WalkDir) (p : List String) (f : FileMeta) :
    ((p, f) ∈ get_file_contents_file_list cfg rootParts walk) ↔
      (∃ d ∈ walk, d.relParts = p ∧ f ∈ d.files ∧
        dirSkipped cfg rootParts d = false ∧ fileSkipped cfg d f = false) := by
  constructor
  · intro h
    rcases List.mem_flatten.mp h with ⟨l, hl, hpf⟩
    rcases List.mem_map.mp hl with ⟨d, hd, rfl⟩
    by_cases hskip : dirSkipped cfg rootParts d = true
    · rw [if_pos hskip] at hpf
      exact absurd hpf (List.not_mem_nil _)
    · rw [if_neg hskip] at hpf
      rcases List.mem_map.mp hpf with ⟨f0, hf0, heq⟩
      have hp : d.relParts = p := congrArg Prod.fst heq
      have hf : f0 = f := congrArg Prod.snd heq
      subst hf
      have hmem := List.mem_filter.mp hf0
      refine ⟨d, hd, hp, hmem.1, Bool.not_eq_true _ |>.mp hskip, ?_⟩
      · cases hB : fileSkipped cfg d f0 with
        | false => rfl
        | true => rw [hB] at hmem; exact absurd hmem.2 (by decide)
  · rintro ⟨d, hd, hp, hf, hds, hfs⟩
    apply List.mem_flatten.mpr
    refine ⟨_, List.mem_map.mpr ⟨d, hd, rfl⟩, ?_⟩
    rw [if_neg (by simp [hds])]
    exact List.mem_map.mpr ⟨f, List.mem_filter.mpr ⟨hf, by simp [hfs]⟩, by rw [hp]⟩

/-- Claim C3, counterexample: with an explicitly supplied but EMPTY
selection, a file that triggers none of the claim's exclusion predicates
(no excluded path segment, extension not excluded, the non-empty-allow-
list condition vacuous, size and date filters off) is nevertheless absent
from the candidate list: the source only tests `selected_files is not
None`, so an empty selection excludes everything. -/
theorem get_file_contents_empty_selection :
    specExcludedC3
      ⟨[".git"], [".svg"], none, some [], 0, none⟩ ["", "r"]
      ⟨[], [⟨"a.txt", 5, 100⟩]⟩ ⟨"a.txt", 5, 100⟩ = false ∧
    (([], (⟨"a.txt", 5, 100⟩ : FileMeta)) ∉
      get_file_contents_file_list
        ⟨[".git"], [".svg"], none, some [], 0, none⟩ ["", "r"]
        [⟨[], [⟨"a.txt", 5, 100⟩]⟩]) := by
  decide

/-- Claim C4: the reading stage delivers one result per input file, the
i-th result being the read of the i-th input file, for EVERY completion
order of the worker pool (any permutation of the submitted task indices);
the right-hand side does not mention the completion order, so two runs
over unchanged inputs produce identical result sequences and hence
byte-identical aggregated output. -/
theorem gatherResults_ordered {α β : Type} (f : α → β) (xs : List α)
    (sched : List Nat) (h : sched.Perm (List.range xs.length)) :
    gatherResults f xs sched = xs.map (fun x => some (f x)) := by
  apply List.ext_getElem
  · simp [gatherResults]
  · intro i h1 h2
    simp only [gatherResults, List.getElem_map, List.getElem_range]
    have hxi : i < xs.length := by simpa using h2
    have hi : i ∈ sched := h.mem_iff.mpr (List.mem_range.mpr hxi)
    rw [taskOutputs, lookup_map_pair (fun j => (xs[j]?).map f) sched i hi]
    simp [List.getElem?_eq_getElem hxi]

/-- Claim C4, witness: three files read in the completion order 2, 0, 1
still yield the results in submission order. -/
theorem gatherResults_ordered_witness :
    ([2, 0, 1] : List Nat).Perm
      (List.range (["aa", "b", "ccc"] : List String).length) ∧
    gatherResults String.length ["aa", "b", "ccc"] [2, 0, 1] =
      (["aa", "b", "ccc"] : List String).map (fun x => some x.length) :=
  ⟨by decide, gatherResults_ordered String.length ["aa", "b", "ccc"] [2, 0, 1]
    (by decide)⟩

/-- Claim C5: when the decoded content matches the assignment-style
API-key pattern, `check_sensitive_content` returns true (it is the first
pattern of the short-circuiting scan), and any content block `read_file`
produces for the file carries the fixed redaction marker in place of the
content — the block is exactly the header plus the marker, so the raw
secret never appears in the output. -/
theorem read_file_masks_sensitive (d : Chardet)
    (decode : Option String → List Nat → String) (raw : List Nat)
    (file_path : String) (keyword : Option String)
    (regexTest : Option (String → Bool)) (minify : Bool)
    (h : searchAssign apiKeyLit keyBody (decode (d.detect raw).1 raw).data = true) :
    check_sensitive_content (decode (d.detect raw).1 raw) = true ∧
    (read_file d decode (some raw) file_path keyword regexTest minify = none ∨
     read_file d decode (some raw) file_path keyword regexTest minify =
       some (contentBlock file_path maskedMarker)) := by
  have hc : check_sensitive_content (decode (d.detect raw).1 raw) = true := by
    simp [check_sensitive_content, h]
  refine ⟨hc, ?_⟩
  cases hb : is_binary_file d (some raw) with
  | true => exact Or.inl (by simp [read_file, hb])
  | false =>
    simp only [read_file, hb, Bool.false_eq_true, if_false, hc, if_true,
      beq_self_eq_true, Bool.not_true, Bool.and_false]
    cases hk : keywordMismatch keyword maskedMarker with
    | true => exact Or.inl (by simp [hk])
    | false =>
      cases hr : regexMismatch regexTest maskedMarker with
      | true => exact Or.inl (by simp [hk, hr])
      | false => exact Or.inr (by simp [hk, hr])

/-- Claim C5, witness: a concrete file whose decoded content is
`API_KEY = "abc123"`. -/
theorem read_file_masks_sensitive_witness :
    searchAssign apiKeyLit keyBody
      ((apiKeyDecode (simpleDetect.detect [65]).1 [65]).data) = true ∧
    (check_sensitive_content (apiKeyDecode (simpleDetect.detect [65]).1 [65]) = true ∧
     (read_file simpleDetect apiKeyDecode (some [65]) "x.py" none none false = none ∨
      read_file simpleDetect apiKeyDecode (some [65]) "x.py" none none false =
        some (contentBlock "x.py" maskedMarker))) :=
  ⟨by decide, read_file_masks_sensitive simpleDetect apiKeyDecode [65] "x.py"
    none none false (by decide)⟩

/-- Claim C9: a zero-byte file is classified as binary whenever the
detector reports no encoding for the empty sample (as `chardet` does),
`read_file` therefore returns `None` for it, and joining any result
sequence that contains this `None` gives the same aggregated output as
joining the sequence without it — the file contributes nothing even when
every folder, extension, size, date and selection filter passes it. -/
theorem zero_byte_file_excluded (d : Chardet)
    (decode : Option String → List Nat → String) (file_path : String)
    (keyword : Option String) (regexTest : Option (String → Bool))
    (minify : Bool) (pre post : List (Option String))
    (h : (d.detect []).1 = none) :
    is_binary_file d (some []) = true ∧
    read_file d decode (some []) file_path keyword regexTest minify = none ∧
    joinTruthy (pre ++
        read_file d decode (some []) file_path keyword regexTest minify :: post) =
      joinTruthy (pre ++ post) := by
  have h1 : is_binary_file d (some []) = true := by
    simp [is_binary_file, h]
  have h2 : read_file d decode (some []) file_path keyword regexTest minify = none := by
    simp [read_file, h1]
  exact ⟨h1, h2, by rw [h2]; exact joinTruthy_append_none pre post⟩

/-- Claim C9, witness: the concrete detector, a surrounding result
sequence with one real block. -/
theorem zero_byte_file_excluded_witness :
    (simpleDetect.detect []).1 = none ∧
    (is_binary_file simpleDetect (some []) = true ∧
     read_file simpleDetect apiKeyDecode (some []) "e.txt" none none false = none ∧
     joinTruthy ([some "B"] ++
         read_file simpleDetect apiKeyDecode (some []) "e.txt" none none false ::
           ([] : List (Option String))) =
       joinTruthy ([some "B"] ++ ([] : List (Option String)))) :=
  ⟨by decide, zero_byte_file_excluded simpleDetect apiKeyDecode "e.txt" none none
    false [some "B"] [] (by decide)⟩

/-- Claim C10: the keyword filter of `read_file` runs on the content
after sensitive-content redaction, so for a file whose content triggers
`check_sensitive_content` and a non-empty keyword whose lowercase form is
not a substring of the lowercased redaction marker, `read_file` returns
`None` — even when the original content contains the keyword. -/
theorem read_file_keyword_after_masking (d : Chardet)
    (decode : Option String → List Nat → String) (raw : List Nat)
    (file_path : String) (k : String) (regexTest : Option (String → Bool))
    (minify : Bool)
    (h1 : check_sensitive_content (decode (d.detect raw).1 raw) = true)
    (h2 : k ≠ "")
    (h3 : hasSub (lowerStr k).data (lowerStr maskedMarker).data = false) :
    read_file d decode (some raw) file_path (some k) regexTest minify = none := by
  cases hb : is_binary_file d (some raw) with
  | true => simp [read_file, hb]
  | false =>
    have hkm : keywordMismatch (some k) maskedMarker = true := by
      simp [keywordMismatch, h2, h3]
    simp [read_file, hb, h1, hkm]

/-- Claim C10, witness: the decoded content `hello API_KEY = "k"`
contains the keyword `hello`, is redacted, and is then rejected by the
keyword filter. -/
theorem read_file_keyword_after_masking_witness :
    check_sensitive_content (helloKeyDecode (simpleDetect.detect [65]).1 [65]) = true ∧
    "hello" ≠ "" ∧
    hasSub (lowerStr "hello").data (lowerStr maskedMarker).data = false ∧
    read_file simpleDetect helloKeyDecode (some [65]) "x.py" (some "hello")
      none false = none :=
  ⟨by decide, by decide, by decide,
    read_file_keyword_after_masking simpleDetect helloKeyDecode [65] "x.py" "hello"
      none false (by decide) (by decide) (by decide)⟩

end SendAI
